import Mathlib

/-!
Shallow embedding of the TrafficAnalyzer covert-channel client
(`stego_client.py`): the 32-bit covert header built from a message's bit
length, the SYN-ACK matching predicate, and the per-bit sequence-number
loop of `send_stego_msg`, together with an event-trace model of the whole
send operation.

The module `session_info.py` (protocol constants and the pinned CRC-8
function) is not part of the available sources; its constants are modelled
from the spec and marked as such below.  Where a theorem only needs the
constants' shapes, the definitions take the magic value and the checksum
function as explicit parameters instead.
-/

set_option maxRecDepth 100000

namespace TrafficAnalyzer

/-- Modelled from the spec: `BYTE_LEN_IN_BITS` from the missing
`session_info.py`; a byte has 8 bits. -/
def BYTE_LEN_IN_BITS : ℕ := 8

/-- Modelled from the spec: `MSG_LEN_BYTE` from the missing
`session_info.py`; the message bit-length field occupies 2 bytes
(an unsigned 16-bit count). -/
def MSG_LEN_BYTE : ℕ := 2

/-- Modelled from the spec: `MAGIC_LEN_BYTE` from the missing
`session_info.py`; the magic constant occupies 1 byte. -/
def MAGIC_LEN_BYTE : ℕ := 1

/-- Modelled from the spec: `CRC_LEN_BYTE` from the missing
`session_info.py`; the checksum occupies 1 byte. -/
def CRC_LEN_BYTE : ℕ := 1

/-- `MAX_MSG_SIZE = (1 << 16) - 1` from `stego_client.py`. -/
def MAX_MSG_SIZE : ℕ := (1 <<< 16) - 1

/-- Modelled from the spec: `Port.HTTP.value` from the missing
`session_info.py`; the fixed well-known service port is the standard web
service port 80. -/
def HTTP_PORT : ℕ := 80

/-- Modelled from the spec: `TcpFlag.SYN.value` from the missing
`session_info.py`; the standard TCP SYN flag bit. -/
def SYN_FLAG : ℕ := 2

/-- Modelled from the spec: `TcpFlag.ACK.value` from the missing
`session_info.py`; the standard TCP ACK flag bit. -/
def ACK_FLAG : ℕ := 16

/-- Modelled from the spec: `TcpFlag.PSH.value` from the missing
`session_info.py`; the standard TCP PSH flag bit. -/
def PSH_FLAG : ℕ := 8

/-- Modelled from the spec: `MAGIC_SEQ` from the missing `session_info.py`,
a pinned fixed 8-bit constant identifying the protocol.  Theorems that do
not depend on the particular value take the magic as a parameter bounded
by 256 instead. -/
def MAGIC_SEQ : ℕ := 171

/-- One shift-register round of the modelled CRC-8 (polynomial x^8+x^2+x+1,
i.e. 0x07). -/
def crc8Round (c : ℕ) : ℕ :=
  if c.testBit 7 then ((c * 2) ^^^ 7) % 256 else (c * 2) % 256

/-- Fold one input byte into the modelled CRC-8 state. -/
def crc8Byte (c b : ℕ) : ℕ := crc8Round^[8] (c ^^^ b)

/-- Modelled from the spec: `CRC8_FUNC` from the missing `session_info.py`.
The spec pins one standard 8-bit CRC as a protocol constant; this model
pins CRC-8 with polynomial 0x07 and initial value 0.  Theorems that do not
depend on the particular CRC take the checksum function as a parameter. -/
def CRC8_FUNC (bytes : List ℕ) : ℕ := bytes.foldl crc8Byte 0

/-- Python's `int.to_bytes(n, "big")`: the `n`-byte big-endian byte list of
`x` (the source only applies it to values that fit in `n` bytes). -/
def toBytesBE : ℕ → ℕ → List ℕ
  | 0, _ => []
  | n + 1, x => toBytesBE n (x / 256) ++ [x % 256]

/-- `StegoClient._build_init_seq`, with the magic constant and the CRC
function (imported from the missing `session_info.py` in the source) as
explicit parameters and the message's UTF-8 byte count as input:
computes the bit length, rejects it when above `MAX_MSG_SIZE`, and
otherwise assembles `((magic << 16) | bitLen) << 8 | crc` where the CRC is
taken over the three high bytes. -/
def build_init_seq (magic : ℕ) (crc8f : List ℕ → ℕ) (msgByteLen : ℕ) :
    Option ℕ :=
  let msg_len_in_bits := msgByteLen * BYTE_LEN_IN_BITS
  if msg_len_in_bits > MAX_MSG_SIZE then
    none
  else
    let magic_masked := magic <<< (MSG_LEN_BYTE * BYTE_LEN_IN_BITS)
    let base_seq := magic_masked ||| msg_len_in_bits
    let crc_int := crc8f (toBytesBE (MSG_LEN_BYTE + MAGIC_LEN_BYTE) base_seq)
    some ((base_seq <<< (CRC_LEN_BYTE * BYTE_LEN_IN_BITS)) ||| crc_int)

/-- The body of the per-bit branch in `send_stego_msg`: `seq |= 1` for a
1-bit, `seq &= ~1` for a 0-bit (on a nonnegative Python int, `x & ~1`
clears the lowest bit, i.e. yields `2 * (x / 2)`). -/
def forceLSB (s : ℕ) (b : Bool) : ℕ :=
  if b then s ||| 1 else 2 * (s / 2)

/-- One iteration of the transmission loop at enumeration index `i`:
`seq += i * 2` followed by forcing the least-significant bit. -/
def stegoStep (s i : ℕ) (b : Bool) : ℕ := forceLSB (s + i * 2) b

/-- The transmission loop of `send_stego_msg`, carrying the mutable
`self._seq` and the enumeration index; returns the sequence numbers of the
sent PSH+ACK packets in order. -/
def stegoSeqsAux (s i : ℕ) : List Bool → List ℕ
  | [] => []
  | b :: bs =>
    let s2 := stegoStep s i b
    s2 :: stegoSeqsAux s2 (i + 1) bs

/-- Sequence numbers of the data-phase packets produced by the loop in
`send_stego_msg`, starting from session sequence number `S` at index 0. -/
def stegoSeqs (S : ℕ) (bits : List Bool) : List ℕ := stegoSeqsAux S 0 bits

/-- The 8 bits of one byte, most-significant first (the order in which
`bitarray.frombytes` yields them). -/
def byteToBits (b : ℕ) : List Bool :=
  [b.testBit 7, b.testBit 6, b.testBit 5, b.testBit 4,
   b.testBit 3, b.testBit 2, b.testBit 1, b.testBit 0]

/-- `bitarray.frombytes(msg.encode("utf-8"))` viewed as a list of bits:
most-significant-bit first within each byte, bytes in original order.  The
model takes the UTF-8 byte list of the message as input. -/
def msgBits : List ℕ → List Bool
  | [] => []
  | b :: bs => byteToBits b ++ msgBits bs

/-- Python's `randrange(lo, hi)` drawing from `lo, lo+1, ..., hi-1`,
modelled as a function of an arbitrary random source `r` so that exactly
the values of `range(lo, hi)` are reachable. -/
def randrange (lo hi r : ℕ) : ℕ := lo + r % (hi - lo)

/-- An observed inbound packet, with the fields `is_synack_reply`
inspects: layer presence, IP addresses, TCP ports, flags, and the sequence
and acknowledgment numbers. -/
structure Packet where
  hasTCP : Bool
  hasIP : Bool
  src : String
  dst : String
  sport : ℕ
  dport : ℕ
  flags : ℕ
  seq : ℕ
  ack : ℕ
deriving DecidableEq

/-- An outbound packet composed by the client: IP source/destination,
TCP source/destination ports, sequence number, flags, and acknowledgment
number (0 when the source leaves scapy's default). -/
structure SentPacket where
  src : String
  dst : String
  sport : ℕ
  dport : ℕ
  seq : ℕ
  flags : ℕ
  ack : ℕ
deriving DecidableEq

/-- Externally visible events of one `send_stego_msg` run: the local
socket being bound, a packet being sent, and the socket being closed. -/
inductive Event where
  | bound : Event
  | sent : SentPacket → Event
  | closed : Event
deriving DecidableEq

/-- The `is_synack_reply` predicate nested in `_receive_init_syn_ack`:
the packet has TCP and IP layers, source address `srv`, destination
address `clt`, source port `Port.HTTP`, destination port `curr_port`,
flags exactly SYN+ACK, and acknowledgment number `seqn + 1` (where `seqn`
is the client's initial sequence number). -/
def is_synack_reply (srv clt : String) (curr_port seqn : ℕ)
    (packet : Packet) : Bool :=
  packet.hasTCP && packet.hasIP
    && (packet.src == srv) && (packet.dst == clt)
    && (packet.sport == HTTP_PORT) && (packet.dport == curr_port)
    && (packet.flags == (SYN_FLAG ||| ACK_FLAG))
    && (packet.ack == seqn + 1)

/-- The data-phase events: one PSH+ACK packet per transmitted sequence
number, in order. -/
def dataEvents (clt srv : String) (port : ℕ) (seqs : List ℕ) : List Event :=
  seqs.map (fun s =>
    Event.sent ⟨clt, srv, port, HTTP_PORT, s, PSH_FLAG ||| ACK_FLAG, 0⟩)

/-- `StegoClient.send_stego_msg` as an event trace.  Inputs beyond the
source's `(msg, clt_ip, srv_ip)`: the magic constant and CRC function
(imported from the missing `session_info.py` in the source), the random
source `rand` for the ephemeral port, whether the local `bind` call
succeeds, and the list of inbound packets the `sniff` call observes (its
result is the first packet satisfying `is_synack_reply`).  The trace
records, in order: the socket bind, every sent packet (SYN; on a matching
SYN-ACK the final ACK and then one PSH+ACK per message bit), and the
socket close. -/
def send_stego_msg (magic : ℕ) (crc8f : List ℕ → ℕ) (msg : List ℕ)
    (clt srv : String) (rand : ℕ) (bindOk : Bool) (inbound : List Packet) :
    List Event :=
  let curr_port := randrange 49152 65535 rand
  if !bindOk then
    [Event.closed]
  else
    Event.bound ::
      match build_init_seq magic crc8f msg.length with
      | none => [Event.closed]
      | some init_seq =>
        Event.sent ⟨clt, srv, curr_port, HTTP_PORT, init_seq, SYN_FLAG, 0⟩ ::
          match inbound.find? (is_synack_reply srv clt curr_port init_seq) with
          | none => [Event.closed]
          | some pkt =>
            Event.sent ⟨clt, srv, curr_port, HTTP_PORT, init_seq + 1,
                ACK_FLAG, pkt.seq + 1⟩ ::
              dataEvents clt srv curr_port
                  (stegoSeqs (init_seq + 1) (msgBits msg))
                ++ [Event.closed]

/-- The packets sent during a run, in order. -/
def sentPackets : List Event → List SentPacket
  | [] => []
  | Event.sent p :: es => p :: sentPackets es
  | _ :: es => sentPackets es

/-- The data-phase (PSH+ACK) packets among the sent packets. -/
def dataPackets (es : List Event) : List SentPacket :=
  (sentPackets es).filter (fun p => p.flags == (PSH_FLAG ||| ACK_FLAG))

/-! ### Helper lemmas -/

lemma lor_one (x : ℕ) : x ||| 1 = 2 * (x / 2) + 1 := by
  apply Nat.eq_of_testBit_eq
  intro i
  cases i with
  | zero =>
    rw [Nat.testBit_lor, Nat.testBit_zero, Nat.testBit_zero, Nat.testBit_zero]
    have h2 : (2 * (x / 2) + 1) % 2 = 1 := by omega
    simp [h2]
  | succ i =>
    rw [Nat.testBit_lor, Nat.testBit_succ, Nat.testBit_succ, Nat.testBit_succ]
    have h1 : (1 : ℕ) / 2 = 0 := by omega
    have h2 : (2 * (x / 2) + 1) / 2 = x / 2 := by omega
    rw [h1, h2, Nat.zero_testBit, Bool.or_false]

lemma shiftLeft_lor_eq_add (a b k : ℕ) (hb : b < 2 ^ k) :
    a <<< k ||| b = a * 2 ^ k + b := by
  apply Nat.eq_of_testBit_eq
  intro i
  rw [Nat.testBit_lor, Nat.testBit_shiftLeft]
  rcases Nat.lt_or_ge i k with hik | hik
  · have hd : (decide (k ≤ i)) = false := decide_eq_false (by omega)
    rw [hd, Bool.false_and, Bool.false_or]
    have hpos : 0 < 2 ^ i := Nat.pos_pow_of_pos i (by norm_num)
    have hsplit : (2 : ℕ) ^ k = 2 ^ i * 2 ^ (k - i) := by
      rw [← Nat.pow_add]
      congr 1
      omega
    have hdiv : (a * 2 ^ k + b) / 2 ^ i = a * 2 ^ (k - i) + b / 2 ^ i := by
      rw [hsplit, ← Nat.mul_assoc, Nat.mul_comm a (2 ^ i), Nat.mul_assoc,
        Nat.mul_add_div hpos]
    have hsplit2 : a * 2 ^ (k - i) = 2 * (2 ^ (k - i - 1) * a) := by
      have hstep : (2 : ℕ) ^ (k - i) = 2 * 2 ^ (k - i - 1) := by
        rw [← Nat.pow_succ']
        congr 1
        omega
      rw [hstep]
      ring
    rw [Nat.testBit_to_div_mod, Nat.testBit_to_div_mod, hdiv, hsplit2]
    have hmod : (2 * (2 ^ (k - i - 1) * a) + b / 2 ^ i) % 2 = b / 2 ^ i % 2 := by
      omega
    rw [hmod]
  · have hd : (decide (k ≤ i)) = true := decide_eq_true hik
    rw [hd, Bool.true_and]
    have hbi : b.testBit i = false :=
      Nat.testBit_eq_false_of_lt
        (lt_of_lt_of_le hb (Nat.pow_le_pow_right (by norm_num) hik))
    rw [hbi, Bool.or_false, Nat.testBit_to_div_mod, Nat.testBit_to_div_mod]
    have hpos : 0 < 2 ^ k := Nat.pos_pow_of_pos k (by norm_num)
    have hsplit : (2 : ℕ) ^ i = 2 ^ k * 2 ^ (i - k) := by
      rw [← Nat.pow_add]
      congr 1
      omega
    have hinner : (a * 2 ^ k + b) / 2 ^ k = a := by
      rw [Nat.mul_comm a, Nat.mul_add_div hpos, Nat.div_eq_of_lt hb, Nat.add_zero]
    have hdiv : (a * 2 ^ k + b) / 2 ^ i = a / 2 ^ (i - k) := by
      rw [hsplit, ← Nat.div_div_eq_div_mul, hinner]
    rw [hdiv]

lemma forceLSB_eq (s : ℕ) (b : Bool) :
    forceLSB s b = 2 * (s / 2) + (if b then 1 else 0) := by
  cases b <;> simp [forceLSB, lor_one]

lemma le_forceLSB (s : ℕ) (b : Bool) : s ≤ forceLSB s b + 1 := by
  rw [forceLSB_eq]
  cases b <;> simp <;> omega

lemma forceLSB_le (s : ℕ) (b : Bool) : forceLSB s b ≤ s + 1 := by
  rw [forceLSB_eq]
  cases b <;> simp <;> omega

lemma toBytesBE_three (m L : ℕ) (hm : m < 256) (hL : L < 65536) :
    toBytesBE 3 (m * 65536 + L) = [m, L / 256, L % 256] := by
  have e1 : (m * 65536 + L) % 256 = L % 256 := by omega
  have e2 : (m * 65536 + L) / 256 % 256 = L / 256 := by omega
  have e3 : (m * 65536 + L) / 256 / 256 % 256 = m := by omega
  simp [toBytesBE, e1, e2, e3]

lemma stegoSeqsAux_length (bits : List Bool) :
    ∀ s i, (stegoSeqsAux s i bits).length = bits.length := by
  induction bits with
  | nil => intro s i; rfl
  | cons b bs ih => intro s i; simp [stegoSeqsAux, ih]

lemma msgBits_length (l : List ℕ) : (msgBits l).length = 8 * l.length := by
  induction l with
  | nil => rfl
  | cons b bs ih => simp [msgBits, byteToBits, ih]; omega

lemma stegoSeqsAux_getD_zero (bits : List Bool) (s i : ℕ)
    (h : 0 < bits.length) :
    (stegoSeqsAux s i bits).getD 0 0 = stegoStep s i (bits.getD 0 false) := by
  cases bits with
  | nil => simp at h
  | cons b bs => simp [stegoSeqsAux]

lemma stegoSeqsAux_getD_succ (bits : List Bool) :
    ∀ s i j, j + 1 < bits.length →
      (stegoSeqsAux s i bits).getD (j + 1) 0 =
        stegoStep ((stegoSeqsAux s i bits).getD j 0) (i + j + 1)
          (bits.getD (j + 1) false) := by
  induction bits with
  | nil => intro s i j h; simp at h
  | cons b bs ih =>
    intro s i j h
    cases j with
    | zero =>
      have hbs : 0 < bs.length := by simpa using h
      simp only [stegoSeqsAux, List.getD_cons_succ, List.getD_cons_zero]
      rw [stegoSeqsAux_getD_zero bs _ _ hbs]
    | succ j =>
      have hbs : j + 1 < bs.length := by simpa using h
      simp only [stegoSeqsAux, List.getD_cons_succ]
      rw [ih _ _ j hbs]
      congr 1
      omega

lemma stegoSeqsAux_getD_ge (bits : List Bool) :
    ∀ s i j, j < bits.length →
      s + (j + 1) * (2 * i + j) ≤ (stegoSeqsAux s i bits).getD j 0 + (j + 1) := by
  induction bits with
  | nil => intro s i j h; simp at h
  | cons b bs ih =>
    intro s i j h
    cases j with
    | zero =>
      simp only [stegoSeqsAux, stegoStep, List.getD_cons_zero]
      have h1 := le_forceLSB (s + i * 2) b
      omega
    | succ j =>
      have hbs : j < bs.length := by simpa using h
      have h1 := ih (forceLSB (s + i * 2) b) (i + 1) j hbs
      have h2 := le_forceLSB (s + i * 2) b
      simp only [stegoSeqsAux, stegoStep, List.getD_cons_succ]
      have key : (j + 1 + 1) * (2 * i + (j + 1)) =
          (j + 1) * (2 * (i + 1) + j) + 2 * i := by
        ring
      omega

lemma getD_mem_of_lt {l : List ℕ} {n : ℕ} (h : n < l.length) :
    l.getD n 0 ∈ l := by
  rw [List.getD_eq_getElem?_getD, List.getElem?_eq_getElem h]
  exact List.getElem_mem h

lemma crc8Round_lt (c : ℕ) : crc8Round c < 256 := by
  unfold crc8Round
  split <;> omega

lemma crc8Byte_lt (c b : ℕ) : crc8Byte c b < 256 := by
  unfold crc8Byte
  rw [show (8 : ℕ) = 7 + 1 from rfl, Function.iterate_succ_apply']
  exact crc8Round_lt _

lemma CRC8_FUNC_lt (l : List ℕ) : CRC8_FUNC l < 256 := by
  unfold CRC8_FUNC
  suffices h : ∀ c, c < 256 → List.foldl crc8Byte c l < 256 from h 0 (by norm_num)
  induction l with
  | nil => intro c hc; simpa using hc
  | cons b bs ih => intro c _; exact ih (crc8Byte c b) (crc8Byte_lt c b)

lemma MAX_MSG_SIZE_eq : MAX_MSG_SIZE = 65535 := by decide

lemma build_init_seq_none (magic : ℕ) (crc8f : List ℕ → ℕ) (len : ℕ)
    (h : len * 8 > 65535) :
    build_init_seq magic crc8f len = none := by
  unfold build_init_seq
  rw [if_pos]
  rw [MAX_MSG_SIZE_eq]
  simpa [BYTE_LEN_IN_BITS] using h

lemma build_init_seq_eq (magic : ℕ) (crc8f : List ℕ → ℕ) (len : ℕ)
    (hm : magic < 256) (hl : len * 8 ≤ 65535)
    (hc : crc8f [magic, len * 8 / 256, len * 8 % 256] < 256) :
    build_init_seq magic crc8f len =
      some (magic * 2 ^ 24 + len * 8 * 2 ^ 8 +
        crc8f [magic, len * 8 / 256, len * 8 % 256]) := by
  unfold build_init_seq
  rw [if_neg (by rw [MAX_MSG_SIZE_eq]; simp [BYTE_LEN_IN_BITS]; omega)]
  dsimp only
  have hbase : magic <<< (MSG_LEN_BYTE * BYTE_LEN_IN_BITS) ||| len * BYTE_LEN_IN_BITS =
      magic * 65536 + len * 8 := by
    have h1 : MSG_LEN_BYTE * BYTE_LEN_IN_BITS = 16 := by decide
    have h2 : BYTE_LEN_IN_BITS = 8 := by decide
    rw [h1, h2, shiftLeft_lor_eq_add magic (len * 8) 16 (by norm_num; omega)]
    norm_num
  rw [hbase]
  have hbytes : toBytesBE (MSG_LEN_BYTE + MAGIC_LEN_BYTE) (magic * 65536 + len * 8) =
      [magic, len * 8 / 256, len * 8 % 256] := by
    have h3 : MSG_LEN_BYTE + MAGIC_LEN_BYTE = 3 := by decide
    rw [h3, toBytesBE_three magic (len * 8) hm (by omega)]
  rw [hbytes]
  have hfull : (magic * 65536 + len * 8) <<< (CRC_LEN_BYTE * BYTE_LEN_IN_BITS) |||
      crc8f [magic, len * 8 / 256, len * 8 % 256] =
      (magic * 65536 + len * 8) * 256 + crc8f [magic, len * 8 / 256, len * 8 % 256] := by
    have h4 : CRC_LEN_BYTE * BYTE_LEN_IN_BITS = 8 := by decide
    rw [h4, shiftLeft_lor_eq_add _ _ 8 (by norm_num; omega)]
    norm_num
  rw [hfull]
  have hring : (magic * 65536 + len * 8) * 256 +
      crc8f [magic, len * 8 / 256, len * 8 % 256] =
      magic * 2 ^ 24 + len * 8 * 2 ^ 8 +
      crc8f [magic, len * 8 / 256, len * 8 % 256] := by
    ring
  rw [hring]

lemma send_stego_msg_too_long (magic : ℕ) (crc8f : List ℕ → ℕ) (msg : List ℕ)
    (clt srv : String) (rand : ℕ) (inbound : List Packet)
    (hb : build_init_seq magic crc8f msg.length = none) :
    send_stego_msg magic crc8f msg clt srv rand true inbound =
      [Event.bound, Event.closed] := by
  simp [send_stego_msg, hb]

lemma send_stego_msg_nosynack (magic : ℕ) (crc8f : List ℕ → ℕ) (msg : List ℕ)
    (clt srv : String) (rand : ℕ) (inbound : List Packet) (s : ℕ)
    (hb : build_init_seq magic crc8f msg.length = some s)
    (hf : inbound.find? (is_synack_reply srv clt (randrange 49152 65535 rand) s) = none) :
    send_stego_msg magic crc8f msg clt srv rand true inbound =
      [Event.bound,
       Event.sent ⟨clt, srv, randrange 49152 65535 rand, HTTP_PORT, s, SYN_FLAG, 0⟩,
       Event.closed] := by
  simp [send_stego_msg, hb, hf]

lemma send_stego_msg_full (magic : ℕ) (crc8f : List ℕ → ℕ) (msg : List ℕ)
    (clt srv : String) (rand : ℕ) (inbound : List Packet) (s : ℕ) (pkt : Packet)
    (hb : build_init_seq magic crc8f msg.length = some s)
    (hf : inbound.find? (is_synack_reply srv clt (randrange 49152 65535 rand) s) =
      some pkt) :
    send_stego_msg magic crc8f msg clt srv rand true inbound =
      Event.bound ::
        Event.sent ⟨clt, srv, randrange 49152 65535 rand, HTTP_PORT, s, SYN_FLAG, 0⟩ ::
          Event.sent ⟨clt, srv, randrange 49152 65535 rand, HTTP_PORT, s + 1,
              ACK_FLAG, pkt.seq + 1⟩ ::
            dataEvents clt srv (randrange 49152 65535 rand)
                (stegoSeqs (s + 1) (msgBits msg))
              ++ [Event.closed] := by
  simp [send_stego_msg, hb, hf]

lemma stegoSeqs_getD_closed (S : ℕ) (bits : List Bool) (i : ℕ)
    (h : i < bits.length) :
    (stegoSeqs S bits).getD i 0 =
      forceLSB ((if i = 0 then S else (stegoSeqs S bits).getD (i - 1) 0) + i * 2)
        (bits.getD i false) := by
  cases i with
  | zero =>
    simpa [stegoSeqs, stegoStep] using stegoSeqsAux_getD_zero bits S 0 h
  | succ j =>
    have hs := stegoSeqsAux_getD_succ bits S 0 j h
    simp only [stegoSeqs, stegoStep, Nat.zero_add] at hs
    simpa [stegoSeqs] using hs

/-! ### Claims -/

/-- C1: for every message whose UTF-8 encoding has bit length `L = len * 8`
with `L ≤ 65535`, the encoded 32-bit initial sequence number equals
`(magic <<< 24) ||| (L <<< 8) ||| checksum`, where the checksum is the
8-bit CRC computed over exactly the 3 prefix bytes
`[magic, L-high, L-low]` in big-endian order and never over the checksum
byte itself. -/
theorem C1_header_layout (magic len : ℕ) (crc8f : List ℕ → ℕ)
    (hm : magic < 256) (hl : len * 8 ≤ 65535)
    (hc : crc8f [magic, len * 8 / 256, len * 8 % 256] < 256) :
    build_init_seq magic crc8f len =
      some (magic <<< 24 ||| (len * 8) <<< 8 |||
        crc8f [magic, len * 8 / 256, len * 8 % 256]) := by
  rw [build_init_seq_eq magic crc8f len hm hl hc]
  have h1 : (len * 8) <<< 8 ||| crc8f [magic, len * 8 / 256, len * 8 % 256] =
      len * 8 * 2 ^ 8 + crc8f [magic, len * 8 / 256, len * 8 % 256] :=
    shiftLeft_lor_eq_add _ _ 8 hc
  have h2 : magic <<< 24 |||
      (len * 8 * 2 ^ 8 + crc8f [magic, len * 8 / 256, len * 8 % 256]) =
      magic * 2 ^ 24 +
        (len * 8 * 2 ^ 8 + crc8f [magic, len * 8 / 256, len * 8 % 256]) :=
    shiftLeft_lor_eq_add _ _ 24 (by norm_num; omega)
  rw [Nat.lor_assoc, h1, h2, Nat.add_assoc]

/-- C1 witness: the 2-byte message (16 payload bits) with the modelled
magic and CRC yields the concrete initial sequence number 2868908244. -/
theorem C1_header_layout_witness :
    build_init_seq MAGIC_SEQ CRC8_FUNC 2 = some 2868908244 :=
  (C1_header_layout MAGIC_SEQ 2 CRC8_FUNC (by decide) (by decide)
    (by decide)).trans (by decide)

/-- C2: for each bit at 0-indexed position `i`, the session sequence
number is first advanced by `i * 2`, then its least-significant bit is
forced to the bit's value leaving all higher bits unchanged; the result is
the sequence number of the `i`-th transmitted packet, odd exactly when the
bit is 1. -/
theorem C2_bit_encoding (S : ℕ) (bits : List Bool) (i : ℕ)
    (h : i < bits.length) :
    (stegoSeqs S bits).getD i 0 =
        forceLSB ((if i = 0 then S else (stegoSeqs S bits).getD (i - 1) 0) + i * 2)
          (bits.getD i false)
      ∧ ((stegoSeqs S bits).getD i 0 % 2 = 1 ↔ bits.getD i false = true)
      ∧ (stegoSeqs S bits).getD i 0 / 2 =
          ((if i = 0 then S else (stegoSeqs S bits).getD (i - 1) 0) + i * 2) / 2 := by
  have hmain := stegoSeqs_getD_closed S bits i h
  refine ⟨hmain, ?_, ?_⟩
  · rw [hmain, forceLSB_eq]
    cases bits.getD i false <;> simp <;> omega
  · rw [hmain, forceLSB_eq]
    cases bits.getD i false <;> simp <;> omega

/-- C2 witness: the loop at `S = 100`, bits `[1,0,1]`, index 1. -/
theorem C2_bit_encoding_witness :
    (stegoSeqs 100 [true, false, true]).getD 1 0 =
        forceLSB ((if (1 : ℕ) = 0 then 100
            else (stegoSeqs 100 [true, false, true]).getD (1 - 1) 0) + 1 * 2)
          (([true, false, true] : List Bool).getD 1 false)
      ∧ ((stegoSeqs 100 [true, false, true]).getD 1 0 % 2 = 1 ↔
          ([true, false, true] : List Bool).getD 1 false = true)
      ∧ (stegoSeqs 100 [true, false, true]).getD 1 0 / 2 =
          ((if (1 : ℕ) = 0 then 100
            else (stegoSeqs 100 [true, false, true]).getD (1 - 1) 0) + 1 * 2) / 2 :=
  C2_bit_encoding 100 [true, false, true] 1 (by decide)

/-- C3 counterexample: starting from `S = 0` with bits `[0,0,0]`, the
packet at index 2 carries sequence number 6, whose bits above the LSB
differ from those of `S + 2 * 2 = 4`: the advance is cumulative across
iterations, not `i * 2` from the start-of-transmission value. -/
theorem C3_counterexample :
    (stegoSeqs 0 [false, false, false]).getD 2 0 / 2 ≠ (0 + 2 * 2) / 2 := by
  decide

/-- C3 amended: the sequence number transmitted at index `i` is odd for a
1-bit and even for a 0-bit, and equals `P + i * 2` with only the
least-significant bit possibly altered, where `P` is the sequence number
of the previously transmitted packet (`P = S`, the session value at the
start of bit transmission, when `i = 0`). -/
theorem C3_amended_lsb_encoding (S : ℕ) (bits : List Bool) (i : ℕ)
    (h : i < bits.length) :
    ((stegoSeqs S bits).getD i 0 % 2 = if bits.getD i false then 1 else 0)
    ∧ (stegoSeqs S bits).getD i 0 / 2 =
        ((if i = 0 then S else (stegoSeqs S bits).getD (i - 1) 0) + i * 2) / 2 := by
  have hmain := stegoSeqs_getD_closed S bits i h
  constructor
  · rw [hmain, forceLSB_eq]
    cases bits.getD i false <;> simp <;> omega
  · rw [hmain, forceLSB_eq]
    cases bits.getD i false <;> simp <;> omega

/-- C3 amended witness: the loop at `S = 0`, bits `[0,0,0]`, index 2. -/
theorem C3_amended_lsb_encoding_witness :
    ((stegoSeqs 0 [false, false, false]).getD 2 0 % 2 =
        if ([false, false, false] : List Bool).getD 2 false then 1 else 0)
    ∧ (stegoSeqs 0 [false, false, false]).getD 2 0 / 2 =
        ((if (2 : ℕ) = 0 then 0
          else (stegoSeqs 0 [false, false, false]).getD (2 - 1) 0) + 2 * 2) / 2 :=
  C3_amended_lsb_encoding 0 [false, false, false] 2 (by decide)

/-- C4: an inbound TCP/IP packet observed while waiting after the SYN is
accepted as the handshake SYN-ACK if and only if its source address is the
remote address, its destination address is the local address, its source
port is the fixed service port, its destination port is the session's
local port, its flags are exactly SYN+ACK, and its acknowledgment number
is the sent initial sequence number plus 1; a packet failing any one
condition is ignored. -/
theorem C4_synack_match (srv clt : String) (curr_port seqn : ℕ) (p : Packet)
    (hT : p.hasTCP = true) (hI : p.hasIP = true) :
    is_synack_reply srv clt curr_port seqn p = true ↔
      (p.src = srv ∧ p.dst = clt ∧ p.sport = HTTP_PORT ∧
       p.dport = curr_port ∧ p.flags = (SYN_FLAG ||| ACK_FLAG) ∧
       p.ack = seqn + 1) := by
  simp [is_synack_reply, hT, hI, and_assoc]

/-- C4 witness: a fully matching packet is accepted. -/
theorem C4_synack_match_witness :
    is_synack_reply "10.0.0.2" "10.0.0.1" 50000 100
      ⟨true, true, "10.0.0.2", "10.0.0.1", 80, 50000, 18, 7, 101⟩ = true :=
  (C4_synack_match "10.0.0.2" "10.0.0.1" 50000 100
    ⟨true, true, "10.0.0.2", "10.0.0.1", 80, 50000, 18, 7, 101⟩ rfl rfl).mpr
    (by exact ⟨rfl, rfl, by decide, rfl, by decide, rfl⟩)

/-- C5: a message whose bit length exceeds 65535 (e.g. 8192 bytes) is
rejected before any packet is sent, while a message whose bit length is at
most 65535 (e.g. 8191 bytes) passes the length check and the SYN packet,
carrying the encoded header as its sequence number, is composed and sent
first. -/
theorem C5_length_boundary (msg : List ℕ) (clt srv : String) (rand : ℕ)
    (inbound : List Packet) :
    (msg.length * 8 > 65535 →
      sentPackets (send_stego_msg MAGIC_SEQ CRC8_FUNC msg clt srv rand true inbound)
        = [])
    ∧ (msg.length * 8 ≤ 65535 →
      ∃ s, build_init_seq MAGIC_SEQ CRC8_FUNC msg.length = some s ∧
        (sentPackets
            (send_stego_msg MAGIC_SEQ CRC8_FUNC msg clt srv rand true inbound)).head?
          = some ⟨clt, srv, randrange 49152 65535 rand, HTTP_PORT, s,
              SYN_FLAG, 0⟩) := by
  constructor
  · intro h
    rw [send_stego_msg_too_long _ _ _ _ _ _ _ (build_init_seq_none _ _ _ h)]
    rfl
  · intro h
    have hs := build_init_seq_eq MAGIC_SEQ CRC8_FUNC msg.length (by decide) h
      (CRC8_FUNC_lt _)
    refine ⟨_, hs, ?_⟩
    cases hf : inbound.find?
        (is_synack_reply srv clt (randrange 49152 65535 rand)
          (MAGIC_SEQ * 2 ^ 24 + msg.length * 8 * 2 ^ 8 +
            CRC8_FUNC [MAGIC_SEQ, msg.length * 8 / 256, msg.length * 8 % 256])) with
    | none =>
      rw [send_stego_msg_nosynack _ _ _ _ _ _ _ _ hs hf]
      rfl
    | some pkt =>
      rw [send_stego_msg_full _ _ _ _ _ _ _ _ _ hs hf]
      rfl

/-- C5 witness: an 8192-byte message sends nothing; an 8191-byte message
sends the SYN first. -/
theorem C5_length_boundary_witness :
    sentPackets (send_stego_msg MAGIC_SEQ CRC8_FUNC (List.replicate 8192 97)
        "10.0.0.1" "10.0.0.2" 0 true []) = []
    ∧ ∃ s,
        build_init_seq MAGIC_SEQ CRC8_FUNC (List.replicate 8191 97).length
          = some s ∧
        (sentPackets (send_stego_msg MAGIC_SEQ CRC8_FUNC (List.replicate 8191 97)
            "10.0.0.1" "10.0.0.2" 0 true [])).head?
          = some ⟨"10.0.0.1", "10.0.0.2", randrange 49152 65535 0, HTTP_PORT, s,
              SYN_FLAG, 0⟩ :=
  ⟨(C5_length_boundary (List.replicate 8192 97) "10.0.0.1" "10.0.0.2" 0 []).1
      (by rw [List.length_replicate]; omega),
   (C5_length_boundary (List.replicate 8191 97) "10.0.0.1" "10.0.0.2" 0 []).2
      (by rw [List.length_replicate]; omega)⟩

/-- C6 counterexample: the code maintains the session sequence number as an
unbounded integer with no modulo-2^32 reduction, so a maximal-length
message (8191 bytes) produces data-phase packets whose sequence numbers
reach 2^32 and beyond; the claim that every transmitted sequence number
lies in [0, 2^32) fails on a concrete full run. -/
theorem C6_counterexample :
    ¬ (∀ p : SentPacket,
        Event.sent p ∈ send_stego_msg MAGIC_SEQ CRC8_FUNC (List.replicate 8191 97)
          "10.0.0.1" "10.0.0.2" 0 true
          [⟨true, true, "10.0.0.2", "10.0.0.1", 80, 49152, 18, 5000, 2885679254⟩] →
        p.seq < 2 ^ 32) := by
  intro hall
  have hbuild : build_init_seq MAGIC_SEQ CRC8_FUNC
      (List.replicate (8191 : ℕ) (97 : ℕ)).length = some 2885679253 := by
    rw [List.length_replicate]
    decide
  have hfind : ([⟨true, true, "10.0.0.2", "10.0.0.1", 80, 49152, 18, 5000,
        2885679254⟩] : List Packet).find?
      (is_synack_reply "10.0.0.2" "10.0.0.1" (randrange 49152 65535 0) 2885679253)
      = some ⟨true, true, "10.0.0.2", "10.0.0.1", 80, 49152, 18, 5000,
          2885679254⟩ := by
    decide
  have htrace := send_stego_msg_full MAGIC_SEQ CRC8_FUNC (List.replicate 8191 97)
    "10.0.0.1" "10.0.0.2" 0 _ 2885679253 _ hbuild hfind
  have hlen : (msgBits (List.replicate (8191 : ℕ) (97 : ℕ))).length = 65528 := by
    rw [msgBits_length, List.length_replicate]
  have hlt : (65527 : ℕ) <
      (stegoSeqsAux (2885679253 + 1) 0 (msgBits (List.replicate 8191 97))).length := by
    rw [stegoSeqsAux_length, hlen]
    omega
  have hge := stegoSeqsAux_getD_ge (msgBits (List.replicate 8191 97))
    (2885679253 + 1) 0 65527 (by omega)
  have hbig : 2 ^ 32 ≤
      (stegoSeqsAux (2885679253 + 1) 0 (msgBits (List.replicate 8191 97))).getD
        65527 0 := by
    have hk : (65527 + 1) * (2 * 0 + 65527) = 4293853256 := by norm_num
    omega
  have hmem := getD_mem_of_lt hlt
  have hmem2 : Event.sent ⟨"10.0.0.1", "10.0.0.2", randrange 49152 65535 0,
      HTTP_PORT,
      (stegoSeqsAux (2885679253 + 1) 0 (msgBits (List.replicate 8191 97))).getD
        65527 0,
      PSH_FLAG ||| ACK_FLAG, 0⟩ ∈
      send_stego_msg MAGIC_SEQ CRC8_FUNC (List.replicate 8191 97)
        "10.0.0.1" "10.0.0.2" 0 true
        [⟨true, true, "10.0.0.2", "10.0.0.1", 80, 49152, 18, 5000, 2885679254⟩] := by
    rw [htrace]
    refine List.mem_cons_of_mem _ (List.mem_cons_of_mem _ (List.mem_cons_of_mem _
      (List.mem_append_left _ ?_)))
    simp only [dataEvents, stegoSeqs]
    exact List.mem_map_of_mem _ hmem
  have hcontra := hall _ hmem2
  simp only at hcontra
  omega

/-- C6 amended: the initial sequence number and the handshake's
acknowledged value `initialSeq + 1` always lie in [0, 2^32) (for an 8-bit
magic and 8-bit checksum), but the data-phase sequence numbers are
maintained without modulo-2^32 wraparound and are not guaranteed to stay
below 2^32. -/
theorem C6_amended_handshake_bound (magic : ℕ) (crc8f : List ℕ → ℕ)
    (len s : ℕ) (hm : magic < 256) (hc : ∀ l, crc8f l < 256)
    (hs : build_init_seq magic crc8f len = some s) :
    s < 2 ^ 32 ∧ s + 1 < 2 ^ 32 := by
  by_cases h : len * 8 > 65535
  · rw [build_init_seq_none _ _ _ h] at hs
    cases hs
  · push_neg at h
    rw [build_init_seq_eq magic crc8f len hm h (hc _)] at hs
    have hcv := hc [magic, len * 8 / 256, len * 8 % 256]
    have hsv := Option.some.inj hs
    have h24 : (2 : ℕ) ^ 24 = 16777216 := by norm_num
    have h8 : (2 : ℕ) ^ 8 = 256 := by norm_num
    have h32 : (2 : ℕ) ^ 32 = 4294967296 := by norm_num
    rw [h24, h8] at hsv
    rw [h32]
    omega

/-- C6 amended witness: the 2-byte message's initial sequence number fits
in 32 bits, as does its successor. -/
theorem C6_amended_handshake_bound_witness :
    (2868908244 : ℕ) < 2 ^ 32 ∧ (2868908244 : ℕ) + 1 < 2 ^ 32 :=
  C6_amended_handshake_bound MAGIC_SEQ CRC8_FUNC 2 2868908244 (by decide)
    CRC8_FUNC_lt (by decide)

/-- C7 counterexample: for an oversized message the local socket is bound
before the length check runs, so a local transport endpoint is acquired
before the MessageTooLarge condition is detected, contradicting the claim
that no endpoint is acquired before the check. -/
theorem C7_counterexample :
    Event.bound ∈ send_stego_msg MAGIC_SEQ CRC8_FUNC (List.replicate 8192 97)
      "10.0.0.1" "10.0.0.2" 0 true [] := by
  rw [send_stego_msg_too_long _ _ _ _ _ _ _
    (build_init_seq_none _ _ _ (by rw [List.length_replicate]; omega))]
  simp

/-- C7 amended: when the message's bit length exceeds 65535, the condition
is detected before any packet is sent and the operation aborts
immediately; the local transport endpoint is acquired (the socket is
bound) before the check, but it is closed on abort, so no resource is
retained afterwards: the whole trace is bind followed by close. -/
theorem C7_amended_too_large_abort (msg : List ℕ) (clt srv : String)
    (rand : ℕ) (inbound : List Packet) (h : msg.length * 8 > 65535) :
    send_stego_msg MAGIC_SEQ CRC8_FUNC msg clt srv rand true inbound =
      [Event.bound, Event.closed] :=
  send_stego_msg_too_long _ _ _ _ _ _ _ (build_init_seq_none _ _ _ h)

/-- C7 amended witness: the 8192-byte message aborts with only a bind and
a close in its trace. -/
theorem C7_amended_too_large_abort_witness :
    send_stego_msg MAGIC_SEQ CRC8_FUNC (List.replicate 8192 97)
      "10.0.0.1" "10.0.0.2" 0 true [] = [Event.bound, Event.closed] :=
  C7_amended_too_large_abort (List.replicate 8192 97) "10.0.0.1" "10.0.0.2" 0 []
    (by rw [List.length_replicate]; omega)

/-- C8: the payload is converted to bits most-significant-bit first within
each byte, bytes in original order: the message "hi" (UTF-8 bytes 0x68,
0x69) yields exactly the 16 bits 01101000 01101001, and a full run
transmits exactly 16 PSH+ACK packets whose sequence-number parities carry
those bits in that order. -/
theorem C8_bit_order :
    msgBits [0x68, 0x69] =
      [false, true, true, false, true, false, false, false,
       false, true, true, false, true, false, false, true]
    ∧ ((dataPackets (send_stego_msg MAGIC_SEQ CRC8_FUNC [0x68, 0x69]
          "10.0.0.1" "10.0.0.2" 0 true
          [⟨true, true, "10.0.0.2", "10.0.0.1", 80, 49152, 18, 5000,
            2868908245⟩])).map (fun p => p.seq % 2)) =
      [0, 1, 1, 0, 1, 0, 0, 0, 0, 1, 1, 0, 1, 0, 0, 1] := by
  constructor
  · decide
  · decide

/-- C9 counterexample: the source's `randrange(49152, 65535)` excludes its
upper bound, so port 65535 is never chosen, contradicting the claim that
every port of the inclusive range 49152-65535 is a possible choice. -/
theorem C9_counterexample :
    ¬ ∃ r : ℕ, randrange 49152 65535 r = 65535 := by
  rintro ⟨r, h⟩
  unfold randrange at h
  omega

/-- C9 amended: every chosen local port lies in the inclusive range
49152-65534, and every port in that range (with 65534, not 65535, as the
top) is a possible choice. -/
theorem C9_amended_port_range :
    (∀ r : ℕ, 49152 ≤ randrange 49152 65535 r ∧ randrange 49152 65535 r ≤ 65534)
    ∧ (∀ p : ℕ, 49152 ≤ p → p ≤ 65534 →
        randrange 49152 65535 (p - 49152) = p) := by
  constructor
  · intro r
    unfold randrange
    omega
  · intro p h1 h2
    unfold randrange
    omega

/-- C9 amended witness: a sample draw lies in range, and the extreme port
65534 is reachable. -/
theorem C9_amended_port_range_witness :
    (49152 ≤ randrange 49152 65535 7 ∧ randrange 49152 65535 7 ≤ 65534)
    ∧ randrange 49152 65535 (65534 - 49152) = 65534 :=
  ⟨C9_amended_port_range.1 7,
   C9_amended_port_range.2 65534 (by norm_num) (by norm_num)⟩

/-- C10: the empty message passes the length check; the SYN is sent with a
header whose 16-bit length field is 0, the handshake completes against a
matching SYN-ACK, and exactly zero data-phase packets are transmitted
before the socket is closed: the whole trace is bind, SYN, ACK, close. -/
theorem C10_empty_message (clt srv : String) (rand peerSeq : ℕ) :
    ∃ s, build_init_seq MAGIC_SEQ CRC8_FUNC ([] : List ℕ).length = some s
      ∧ s / 256 % 65536 = 0
      ∧ send_stego_msg MAGIC_SEQ CRC8_FUNC [] clt srv rand true
          [⟨true, true, srv, clt, HTTP_PORT, randrange 49152 65535 rand,
            SYN_FLAG ||| ACK_FLAG, peerSeq, s + 1⟩] =
        [Event.bound,
         Event.sent ⟨clt, srv, randrange 49152 65535 rand, HTTP_PORT, s,
           SYN_FLAG, 0⟩,
         Event.sent ⟨clt, srv, randrange 49152 65535 rand, HTTP_PORT, s + 1,
           ACK_FLAG, peerSeq + 1⟩,
         Event.closed] := by
  refine ⟨2868904100, by decide, by norm_num, ?_⟩
  have hb : build_init_seq MAGIC_SEQ CRC8_FUNC ([] : List ℕ).length
      = some 2868904100 := by decide
  have hf : ([⟨true, true, srv, clt, HTTP_PORT, randrange 49152 65535 rand,
        SYN_FLAG ||| ACK_FLAG, peerSeq, 2868904100 + 1⟩] : List Packet).find?
      (is_synack_reply srv clt (randrange 49152 65535 rand) 2868904100)
      = some ⟨true, true, srv, clt, HTTP_PORT, randrange 49152 65535 rand,
          SYN_FLAG ||| ACK_FLAG, peerSeq, 2868904100 + 1⟩ := by
    apply List.find?_cons_of_pos
    simp [is_synack_reply]
  have htrace := send_stego_msg_full MAGIC_SEQ CRC8_FUNC [] clt srv rand _
    2868904100 _ hb hf
  simpa [dataEvents, stegoSeqs, stegoSeqsAux, msgBits] using htrace

end TrafficAnalyzer
